import Mathlib

/-!
Verification of the multi-provider ensemble resolution engine of the
`ai-server` repository (source: `src/api/index.ts`, with a REST variant in
`src/unnamed/part_000`).  The TypeScript functions are shallowly embedded as
executable Lean definitions: JavaScript strings become `String`/`List Char`,
JavaScript numbers appearing as confidences become `Nat`/`Int`, `JSON.parse`
is embedded as an executable JSON parser, the specific regular expressions of
the source are embedded as dedicated scanning functions with the same
semantics, and asynchronous provider calls are modelled by passing the
would-be provider results as explicit arguments.  Unicode-sensitive corner
cases of JavaScript (`toUpperCase` beyond ASCII, UTF-16 lone surrogates,
number-to-string formatting of extreme floats) are outside the inputs the
claims exercise and are noted where they are approximated.
-/

namespace AiServer

set_option maxRecDepth 100000

/-- Whitespace class of JavaScript regular expressions (`\s`) and `trim`,
restricted to the ASCII range (the source only handles ASCII text). -/
def isJsWs (c : Char) : Bool :=
  c = ' ' ∨ c = '\t' ∨ c = '\n' ∨ c = '\r' ∨ c = '\x0b' ∨ c = '\x0c'

/-- Embedding of JavaScript `String.prototype.trim`. -/
def jsTrim (s : String) : String :=
  String.mk (((s.data.dropWhile isJsWs).reverse.dropWhile isJsWs).reverse)

/-- Embedding of JavaScript `String.prototype.toUpperCase` (ASCII). -/
def jsUpper (s : String) : String :=
  String.mk (s.data.map Char.toUpper)

/-- Embedding of JavaScript `String.prototype.toLowerCase` (ASCII). -/
def jsLower (s : String) : String :=
  String.mk (s.data.map Char.toLower)

/-- Does `pat` occur at the head of `cs`? -/
def startsWithChars : List Char → List Char → Bool
  | [], _ => true
  | _ :: _, [] => false
  | p :: ps, c :: cs => p = c && startsWithChars ps cs

/-- First index at or after the start of `cs` whose character satisfies `p`,
counting from `i`. -/
def findIdxAux (p : Char → Bool) : List Char → Nat → Option Nat
  | [], _ => none
  | c :: cs, i => if p c then some i else findIdxAux p cs (i + 1)

/-- First index (counting from `i`) at which the pattern `pat` occurs in the
remaining characters. -/
def findSubAux (pat : List Char) : List Char → Nat → Option Nat
  | [], i => if pat.isEmpty then some i else none
  | c :: cs, i =>
    if startsWithChars pat (c :: cs) then some i else findSubAux pat cs (i + 1)

/-- Last index whose character satisfies `p`, scanning the whole list. -/
def lastIdxAux (p : Char → Bool) : List Char → Nat → Option Nat → Option Nat
  | [], _, acc => acc
  | c :: cs, i, acc => lastIdxAux p cs (i + 1) (if p c then some i else acc)

/-- Embedding of JavaScript `String.prototype.includes`. -/
def jsIncludes (s sub : String) : Bool :=
  (findSubAux sub.data s.data 0).isSome

/-- Accumulator pass keeping the first occurrence of each element. -/
def dedupFirstGo (seen : List Char) : List Char → List Char
  | [] => []
  | x :: xs => if seen.contains x then dedupFirstGo seen xs else x :: dedupFirstGo (x :: seen) xs

/-- Keep the first occurrence of each element (the iteration order of a
JavaScript `Set`). -/
def dedupFirst (cs : List Char) : List Char := dedupFirstGo [] cs

/-- Letter class `[A-F]` of the source's answer-letter regular expressions. -/
def isLetterAF (c : Char) : Bool := 'A' ≤ c ∧ c ≤ 'F'

/-- Case-insensitive letter class `[A-F]` (the `/i`-flagged patterns). -/
def isLetterAFi (c : Char) : Bool := ('A' ≤ c ∧ c ≤ 'F') ∨ ('a' ≤ c ∧ c ≤ 'f')

/-- `[...new Set(letters)].sort().join(", ")` of the source: deduplicate,
sort ascending by character code, join with a comma and space. -/
def dedupSortJoin (letters : List Char) : String :=
  String.intercalate ", "
    ((List.insertionSort (fun a b : Char => a ≤ b) (dedupFirst letters)).map Char.toString)

/-- Values produced by `JSON.parse`.  A number carries its truncation toward
zero, a zero flag, an integer-exactness flag, and a display string
approximating JavaScript number-to-string for plain decimal literals. -/
inductive Json where
  | jnull : Json
  | jbool : Bool → Json
  | jnum : Int → Bool → Bool → String → Json
  | jstr : String → Json
  | jarr : List Json → Json
  | jobj : List (String × Json) → Json
deriving Repr

/-- Whitespace accepted by `JSON.parse` between tokens. -/
def skipJsonWs : List Char → List Char
  | [] => []
  | c :: cs => if c = ' ' ∨ c = '\t' ∨ c = '\n' ∨ c = '\r' then skipJsonWs cs else c :: cs

/-- Hexadecimal digit value. -/
def hexVal (c : Char) : Option Nat :=
  if '0' ≤ c ∧ c ≤ '9' then some (c.toNat - 48)
  else if 'a' ≤ c ∧ c ≤ 'f' then some (c.toNat - 87)
  else if 'A' ≤ c ∧ c ≤ 'F' then some (c.toNat - 55)
  else none

/-- Parse the body of a JSON string literal (the opening quote already
consumed), returning the decoded characters and the rest of the input. -/
def parseJsonStringChars : List Char → Option (List Char × List Char)
  | [] => none
  | c :: rest =>
    if c = '"' then some ([], rest)
    else if c = '\\' then
      match rest with
      | [] => none
      | e :: r =>
        if e = '"' then (fun p => ('"' :: p.1, p.2)) <$> parseJsonStringChars r
        else if e = '\\' then (fun p => ('\\' :: p.1, p.2)) <$> parseJsonStringChars r
        else if e = '/' then (fun p => ('/' :: p.1, p.2)) <$> parseJsonStringChars r
        else if e = 'b' then (fun p => ('\x08' :: p.1, p.2)) <$> parseJsonStringChars r
        else if e = 'f' then (fun p => ('\x0c' :: p.1, p.2)) <$> parseJsonStringChars r
        else if e = 'n' then (fun p => ('\n' :: p.1, p.2)) <$> parseJsonStringChars r
        else if e = 'r' then (fun p => ('\r' :: p.1, p.2)) <$> parseJsonStringChars r
        else if e = 't' then (fun p => ('\t' :: p.1, p.2)) <$> parseJsonStringChars r
        else if e = 'u' then
          match r with
          | h1 :: h2 :: h3 :: h4 :: r2 =>
            match hexVal h1, hexVal h2, hexVal h3, hexVal h4 with
            | some a, some b, some cc, some d =>
              (fun p => (Char.ofNat (((a * 16 + b) * 16 + cc) * 16 + d) :: p.1, p.2)) <$>
                parseJsonStringChars r2
            | _, _, _, _ => none
          | _ => none
        else none
    else if c.toNat < 32 then none
    else (fun p => (c :: p.1, p.2)) <$> parseJsonStringChars rest

/-- Decimal digits to a natural number. -/
def digitsToNat (ds : List Char) : Nat :=
  ds.foldl (fun a c => a * 10 + (c.toNat - 48)) 0

/-- Parse a JSON number token, returning its `Json.jnum` encoding and the
rest of the input. -/
def parseJsonNumber (cs : List Char) : Option (Json × List Char) :=
  let (negSign, cs1) := match cs with
    | '-' :: t => (true, t)
    | _ => (false, cs)
  let intOk : Option (List Char × List Char) := match cs1 with
    | '0' :: t => some (['0'], t)
    | c :: _ =>
      if '1' ≤ c ∧ c ≤ '9' then
        some (cs1.takeWhile Char.isDigit, cs1.dropWhile Char.isDigit)
      else none
    | [] => none
  match intOk with
  | none => none
  | some (intDigits, cs2) =>
    let fracOk : Option (List Char × List Char) := match cs2 with
      | '.' :: t =>
        let f := t.takeWhile Char.isDigit
        if f.isEmpty then none else some (f, t.dropWhile Char.isDigit)
      | _ => some ([], cs2)
    match fracOk with
    | none => none
    | some (fracDigits, cs3) =>
      let expOk : Option (Bool × List Char × List Char) := match cs3 with
        | c :: t =>
          if c = 'e' ∨ c = 'E' then
            let (expNeg, t2) := match t with
              | '-' :: u => (true, u)
              | '+' :: u => (false, u)
              | _ => (false, t)
            let e := t2.takeWhile Char.isDigit
            if e.isEmpty then none else some (expNeg, e, t2.dropWhile Char.isDigit)
          else some (false, [], cs3)
        | [] => some (false, [], cs3)
      match expOk with
      | none => none
      | some (expNeg, expDigits, cs4) =>
        let m := digitsToNat (intDigits ++ fracDigits)
        let expVal : Int :=
          if expNeg then -(digitsToNat expDigits : Int) else (digitsToNat expDigits : Int)
        let shift : Int := expVal - (fracDigits.length : Int)
        let mag : Nat :=
          if 0 ≤ shift then m * 10 ^ shift.toNat else m / 10 ^ (-shift).toNat
        let exact : Bool :=
          if 0 ≤ shift then true else m % 10 ^ (-shift).toNat = 0
        let trunc : Int := if negSign then -(mag : Int) else (mag : Int)
        let display := String.mk
          ((if negSign then ['-'] else []) ++ intDigits ++
           (if fracDigits.isEmpty then [] else '.' :: fracDigits) ++
           (if expDigits.isEmpty then [] else
             'e' :: ((if expNeg then ['-'] else []) ++ expDigits)))
        some (Json.jnum trunc (m = 0) exact display, cs4)

mutual

/-- Fuel-indexed parser for a JSON value. -/
def parseJsonValue : Nat → List Char → Option (Json × List Char)
  | 0, _ => none
  | fuel + 1, cs =>
    match skipJsonWs cs with
    | [] => none
    | c :: rest =>
      if c = '{' then
        match skipJsonWs rest with
        | '}' :: r2 => some (Json.jobj [], r2)
        | r1 => (fun p => (Json.jobj p.1, p.2)) <$> parseJsonMembers fuel r1 []
      else if c = '[' then
        match skipJsonWs rest with
        | ']' :: r2 => some (Json.jarr [], r2)
        | r1 => (fun p => (Json.jarr p.1, p.2)) <$> parseJsonElements fuel r1 []
      else if c = '"' then
        match parseJsonStringChars rest with
        | some (body, r2) => some (Json.jstr (String.mk body), r2)
        | none => none
      else if startsWithChars "true".data (c :: rest) then
        some (Json.jbool true, (c :: rest).drop 4)
      else if startsWithChars "false".data (c :: rest) then
        some (Json.jbool false, (c :: rest).drop 5)
      else if startsWithChars "null".data (c :: rest) then
        some (Json.jnull, (c :: rest).drop 4)
      else parseJsonNumber (c :: rest)

/-- Parse the members of a JSON object after the opening brace (first member
not yet consumed). -/
def parseJsonMembers : Nat → List Char → List (String × Json) →
    Option (List (String × Json) × List Char)
  | 0, _, _ => none
  | fuel + 1, cs, acc =>
    match skipJsonWs cs with
    | '"' :: rest =>
      match parseJsonStringChars rest with
      | none => none
      | some (key, r1) =>
        match skipJsonWs r1 with
        | ':' :: r2 =>
          match parseJsonValue fuel r2 with
          | none => none
          | some (v, r3) =>
            match skipJsonWs r3 with
            | ',' :: r4 => parseJsonMembers fuel r4 (acc ++ [(String.mk key, v)])
            | '}' :: r4 => some (acc ++ [(String.mk key, v)], r4)
            | _ => none
        | _ => none
    | _ => none

/-- Parse the elements of a JSON array after the opening bracket (first
element not yet consumed). -/
def parseJsonElements : Nat → List Char → List Json → Option (List Json × List Char)
  | 0, _, _ => none
  | fuel + 1, cs, acc =>
    match parseJsonValue fuel cs with
    | none => none
    | some (v, r1) =>
      match skipJsonWs r1 with
      | ',' :: r2 => parseJsonElements fuel r2 (acc ++ [v])
      | ']' :: r2 => some (acc ++ [v], r2)
      | _ => none

end

/-- Embedding of `JSON.parse` on a whole string: a single JSON value with
only whitespace around it.  Objects are wrapped in `Json.jobj`. -/
def jsonParseStr (s : String) : Option Json :=
  match parseJsonValue (s.data.length + 2) s.data with
  | some (Json.jobj f, rest) =>
    if (skipJsonWs rest).isEmpty then some (Json.jobj f) else none
  | some (v, rest) => if (skipJsonWs rest).isEmpty then some v else none
  | none => none

mutual

/-- JavaScript `String(v)` for a parsed JSON value. -/
def jsToString : Json → String
  | Json.jnull => "null"
  | Json.jbool true => "true"
  | Json.jbool false => "false"
  | Json.jnum _ _ _ d => d
  | Json.jstr s => s
  | Json.jarr xs => jsArrJoin xs
  | Json.jobj _ => "[object Object]"

/-- JavaScript `Array.prototype.toString` (join with commas, `null`
elements become the empty string). -/
def jsArrJoin : List Json → String
  | [] => ""
  | [Json.jnull] => ""
  | [x] => jsToString x
  | Json.jnull :: y :: xs => "," ++ jsArrJoin (y :: xs)
  | x :: y :: xs => jsToString x ++ "," ++ jsArrJoin (y :: xs)

end

/-- JavaScript truthiness of a parsed JSON value. -/
def jsTruthy : Json → Bool
  | Json.jnull => false
  | Json.jbool b => b
  | Json.jnum _ isZero _ _ => ¬ isZero
  | Json.jstr s => ¬ s = ""
  | Json.jarr _ => true
  | Json.jobj _ => true

/-- Property lookup on a parsed JSON object: `JSON.parse` keeps the last of
duplicate keys. -/
def objGetLast (fields : List (String × Json)) (key : String) : Option Json :=
  (fields.reverse.find? (fun kv => kv.1 = key)).map (fun kv => kv.2)

/-- Embedding of JavaScript `parseInt` (radix 10, with the implicit
hexadecimal `0x` prefix); `none` plays the role of `NaN`. -/
def parseIntJS (s : String) : Option Int :=
  let cs := s.data.dropWhile isJsWs
  let (neg, cs1) := match cs with
    | '-' :: t => (true, t)
    | '+' :: t => (false, t)
    | _ => (false, cs)
  match cs1 with
  | '0' :: x :: t =>
    if x = 'x' ∨ x = 'X' then
      let hs := t.takeWhile (fun c => (hexVal c).isSome)
      if hs.isEmpty then none
      else
        let v := hs.foldl (fun a c => a * 16 + ((hexVal c).getD 0)) 0
        some (if neg then -(v : Int) else (v : Int))
    else
      let ds := ('0' :: x :: t).takeWhile Char.isDigit
      some (if neg then -(digitsToNat ds : Int) else (digitsToNat ds : Int))
  | _ =>
    let ds := cs1.takeWhile Char.isDigit
    if ds.isEmpty then none
    else some (if neg then -(digitsToNat ds : Int) else (digitsToNat ds : Int))

/-- Record produced by `parseAnswerWithConfidence`. -/
structure ParsedAnswer where
  answer : String
  confidence : Nat
deriving DecidableEq, Repr

/-- Fence pattern `"```json"` of the markdown-stripping regular expressions. -/
def fenceJsonChars : List Char := "```json".data

/-- Fence pattern `"```"`. -/
def fenceChars : List Char := "```".data

/-- Scanner for `text.replace(/```json\n?|\n?```/g, '')`: at each position the
first alternative (```json with an optional following newline) is tried, then
the second (an optional leading newline and ```). -/
def cleanFencesWholeGo : Nat → List Char → List Char
  | 0, cs => cs
  | fuel + 1, cs =>
    match cs with
    | [] => []
    | c :: rest =>
      if startsWithChars fenceJsonChars cs then
        match cs.drop 7 with
        | '\n' :: r2 => cleanFencesWholeGo fuel r2
        | r1 => cleanFencesWholeGo fuel r1
      else if c = '\n' ∧ startsWithChars fenceChars rest then
        cleanFencesWholeGo fuel (rest.drop 3)
      else if startsWithChars fenceChars cs then
        cleanFencesWholeGo fuel (cs.drop 3)
      else c :: cleanFencesWholeGo fuel rest

/-- `text.replace(/```json\n?|\n?```/g, '')` of the first JSON strategy. -/
def cleanFencesWhole (s : String) : String :=
  String.mk (cleanFencesWholeGo (s.data.length + 1) s.data)

/-- Scanner for `jsonStr.replace(/```json|```/g, "")` (no newline handling). -/
def cleanFencesSimpleGo : Nat → List Char → List Char
  | 0, cs => cs
  | fuel + 1, cs =>
    match cs with
    | [] => []
    | c :: rest =>
      if startsWithChars fenceJsonChars cs then cleanFencesSimpleGo fuel (cs.drop 7)
      else if startsWithChars fenceChars cs then cleanFencesSimpleGo fuel (cs.drop 3)
      else c :: cleanFencesSimpleGo fuel rest

/-- `jsonStr.replace(/```json|```/g, "")` of the second JSON strategy. -/
def cleanFencesSimple (s : String) : String :=
  String.mk (cleanFencesSimpleGo (s.data.length + 1) s.data)

/-- The literal `"answer"` (with quotes) searched by the lazy regular
expression `/\x7b[\s\S]*?"answer"[\s\S]*?\x7d/`. -/
def answerPat : List Char := "\"answer\"".data

/-- Matched span of `text.match(/\x7b[\s\S]*?"answer"[\s\S]*?\x7d/)`: with
leftmost-start and lazy quantifiers this is the span from the first `\x7b` of
the text through the first `\x7d` that follows the first occurrence of
`"answer"` after that brace. -/
def jsonRegexSpan (text : String) : Option String :=
  let cs := text.data
  match findIdxAux (fun c => c = '{') cs 0 with
  | none => none
  | some i =>
    match (findSubAux answerPat (cs.drop (i + 1)) 0).map (fun k => k + (i + 1)) with
    | none => none
    | some o =>
      match (findIdxAux (fun c => c = '}') (cs.drop (o + 8)) 0).map (fun k => k + (o + 8)) with
      | none => none
      | some l => some (String.mk ((cs.drop i).take (l - i + 1)))

/-- The `answer` property of a parsed value (`undefined` when the value is
not an object or lacks the field). -/
def answerFieldOf : Json → Option Json
  | Json.jobj f => objGetLast f "answer"
  | _ => none

/-- `String(parsed.answer || "").toUpperCase()` of the JSON strategies. -/
def answerStringOf (v : Json) : String :=
  match answerFieldOf v with
  | some av => if jsTruthy av then jsUpper (jsToString av) else ""
  | none => ""

/-- The `confidence` property of a parsed value. -/
def confFieldOf : Json → Option Json
  | Json.jobj f => objGetLast f "confidence"
  | _ => none

/-- `Math.min(100, Math.max(0, parseInt(parsed.confidence) || 50))` of the
JSON strategies (`parseInt` of a missing field is `NaN`, and both `NaN` and
`0` fall back to `50`). -/
def confOf (v : Json) : Nat :=
  let pi : Option Int := match confFieldOf v with
    | some cv => parseIntJS (jsToString cv)
    | none => none
  let c : Int := match pi with
    | none => 50
    | some n => if n = 0 then 50 else n
  (min 100 (max 0 c)).toNat

/-- Strategy 1 of `parseAnswerWithConfidence`: parse the whole fence-stripped
text as JSON.  A parsed `null` throws on the `parsed.answer` access inside
the `try`, which falls through to the next strategy. -/
def strategy1 (text : String) : Option ParsedAnswer :=
  let jsonStr := jsTrim (cleanFencesWhole text)
  match jsonParseStr jsonStr with
  | some Json.jnull => none
  | some v => some ⟨answerStringOf v, confOf v⟩
  | none => none

/-- Strategy 2: find a `\x7b ... "answer" ... \x7d` span, strip fences, parse. -/
def strategy2 (text : String) : Option ParsedAnswer :=
  match jsonRegexSpan text with
  | none => none
  | some span =>
    match jsonParseStr (jsTrim (cleanFencesSimple span)) with
    | some Json.jnull => none
    | some v => some ⟨answerStringOf v, confOf v⟩
    | none => none

/-- Strategy 3: `/^(true|false)$/i` returns the lower-cased text with
confidence 85. -/
def strategy3 (text : String) : Option ParsedAnswer :=
  if jsLower text = "true" ∨ jsLower text = "false" then some ⟨jsLower text, 85⟩
  else none

/-- Separator class `[,\s]` of the strict letter pattern. -/
def isSepChar (c : Char) : Bool := isJsWs c || c = ','

/-- Number of commas in a run of separator characters. -/
def commaCount (cs : List Char) : Nat := (cs.filter (fun c => c = ',')).length

/-- After the first letter, the strict pattern
`(?:\s*[,\s]\s*([A-F]))*\s*$` matches when the remaining text is letters
separated by nonempty comma/whitespace runs holding at most one comma each,
with pure trailing whitespace. -/
def strictLetterRun : Nat → List Char → Bool
  | 0, _ => false
  | fuel + 1, cs =>
    match cs with
    | [] => true
    | _ =>
      let sep := cs.takeWhile isSepChar
      let rest := cs.dropWhile isSepChar
      match rest with
      | [] => commaCount sep = 0
      | c :: rest2 =>
        (¬ sep.isEmpty) && commaCount sep ≤ 1 && isLetterAFi c &&
          strictLetterRun fuel rest2

/-- Full-text test of `/^\s*([A-F])(?:\s*[,\s]\s*([A-F]))*\s*$/i`. -/
def strictLetterPattern (cs : List Char) : Bool :=
  match cs.dropWhile isJsWs with
  | c :: rest => isLetterAFi c && strictLetterRun (rest.length + 1) rest
  | [] => false

/-- Strategy 4: strict short-letter pattern; the letters of the whole
upper-cased text are deduplicated, sorted and joined when there are at most
six of them. -/
def strategy4 (text : String) : Option ParsedAnswer :=
  if strictLetterPattern text.data then
    let letters := (jsUpper text).data.filter isLetterAF
    if 0 < letters.length ∧ letters.length ≤ 6 then some ⟨dedupSortJoin letters, 70⟩
    else none
  else none

/-- Keyword `answer` of the labeled-answer regular expression. -/
def kwAnswer : List Char := "answer".data

/-- Keyword `jawaban`. -/
def kwJawaban : List Char := "jawaban".data

/-- Keyword `option`. -/
def kwOption : List Char := "option".data

/-- Is the next character (if any) an acceptable trailer `(?:\s|$|\*)` for
the letter group? -/
def phraseTrailerOk : List Char → Bool
  | [] => true
  | c :: _ => isJsWs c || c = '*'

/-- Greedy matching of `(?:,\s*[A-F])*` after the first letter, backtracking
to the longest repetition count whose trailer is acceptable; returns the
matched group characters. -/
def phraseGreedy : Nat → List Char → List Char → Option (List Char)
  | 0, _, _ => none
  | fuel + 1, acc, cs =>
    match cs with
    | ',' :: t =>
      let wsPart := t.takeWhile isJsWs
      let t2 := t.dropWhile isJsWs
      match t2 with
      | l :: t3 =>
        if isLetterAFi l then
          match phraseGreedy fuel (acc ++ [','] ++ wsPart ++ [l]) t3 with
          | some m => some m
          | none => if phraseTrailerOk cs then some acc else none
        else if phraseTrailerOk cs then some acc else none
      | [] => if phraseTrailerOk cs then some acc else none
    | _ => if phraseTrailerOk cs then some acc else none

/-- Try the labeled-answer pattern at the current position: a keyword, then
`\s*:?\s*(\*+)?\s*`, then the letter group. -/
def phraseTryAt (cs : List Char) : Option (List Char) :=
  let lcs := cs.map Char.toLower
  let rest? : Option (List Char) :=
    if startsWithChars kwAnswer lcs then some (cs.drop 6)
    else if startsWithChars kwJawaban lcs then some (cs.drop 7)
    else if startsWithChars kwOption lcs then some (cs.drop 6)
    else none
  match rest? with
  | none => none
  | some r0 =>
    let r1 := r0.dropWhile isJsWs
    let r2 := match r1 with
      | ':' :: t => t
      | _ => r1
    let r3 := r2.dropWhile isJsWs
    let r4 := r3.dropWhile (fun c => c = '*')
    let r5 := r4.dropWhile isJsWs
    match r5 with
    | c :: rest =>
      if isLetterAFi c then phraseGreedy (rest.length + 1) [c] rest else none
    | [] => none

/-- Leftmost search of
`/(?:answer|jawaban|option)\s*:?\s*(\*+)?\s*([A-F](?:,\s*[A-F])*)(?:\s|$|\*)/i`,
advancing one position on failure. -/
def phraseScan : Nat → List Char → Option (List Char)
  | 0, _ => none
  | fuel + 1, cs =>
    match phraseTryAt cs with
    | some m => some m
    | none =>
      match cs with
      | [] => none
      | _ :: rest => phraseScan fuel rest

/-- Strategy 5: labeled-answer phrase with confidence 65. -/
def strategy5 (text : String) : Option ParsedAnswer :=
  match phraseScan (text.data.length + 1) text.data with
  | some m =>
    let letters := (jsUpper (String.mk m)).data.filter isLetterAF
    if ¬ letters.isEmpty then some ⟨dedupSortJoin letters, 65⟩ else none
  | none => none

/-- Strategy 6: very short text containing one to four `A-F` letters,
confidence 60. -/
def strategy6 (text : String) : Option ParsedAnswer :=
  if text.length ≤ 10 then
    let letters := (jsUpper text).data.filter isLetterAF
    if 0 < letters.length ∧ letters.length ≤ 4 then some ⟨dedupSortJoin letters, 60⟩
    else none
  else none

/-- Embedding of `parseAnswerWithConfidence` of `src/api/index.ts`: the six
strategies in their fixed priority order; an empty or null raw text returns
confidence 50, total failure returns empty labels with confidence 0. -/
def parseAnswerWithConfidence (rawText : String) : ParsedAnswer :=
  if rawText = "" then ⟨"", 50⟩
  else
    let text := jsTrim rawText
    match strategy1 text with
    | some r => r
    | none =>
      match strategy2 text with
      | some r => r
      | none =>
        match strategy3 text with
        | some r => r
        | none =>
          match strategy4 text with
          | some r => r
          | none =>
            match strategy5 text with
            | some r => r
            | none =>
              match strategy6 text with
              | some r => r
              | none => ⟨"", 0⟩

/-- Helper for stating that a string holds a parseable JSON object whose
`answer` field stringifies to the given value. -/
def jsonAnswerField (s : String) : Option String :=
  match jsonParseStr s with
  | some (Json.jobj f) => (objGetLast f "answer").map jsToString
  | _ => none

/-- Segment matched by `msg.match(/\x7b"error".*\x7d/)`: from the first
occurrence of `\x7b"error"` through the last `\x7d` on the same line (`.` does
not cross line terminators). -/
def errorJsonSegment (msg : String) : Option String :=
  let cs := msg.data
  match findSubAux "\x7b\"error\"".data cs 0 with
  | none => none
  | some i =>
    let lineChars := (cs.drop i).takeWhile (fun c => ¬ (c = '\n' ∨ c = '\r'))
    match lastIdxAux (fun c => c = '}') lineChars 0 none with
    | some j => some (String.mk (lineChars.take (j + 1)))
    | none => none

/-- `parsed.error?.code`-style lookup of a field of the `error` object. -/
def errorSubField (v : Json) (key : String) : Option Json :=
  match v with
  | Json.jobj f =>
    match objGetLast f "error" with
    | some (Json.jobj g) => objGetLast g key
    | _ => none
  | _ => none

/-- Strict equality of a parsed JSON field with an integer literal. -/
def jsonIsNum (v : Option Json) (n : Int) : Bool :=
  match v with
  | some (Json.jnum t _ exact _) => exact && t = n
  | _ => false

/-- Strict equality of a parsed JSON field with a string literal. -/
def jsonIsStr (v : Option Json) (s : String) : Bool :=
  match v with
  | some (Json.jstr t) => t = s
  | _ => false

/-- Embedding of `formatError` of `src/api/index.ts`, taking the error
message string (`String(error.message || error || "Unknown error")` is
resolved by the caller). -/
def formatError (msg : String) : String :=
  let jsonBranch : Option String :=
    if jsIncludes msg "\x7b\"error\"" then
      match errorJsonSegment msg with
      | some seg =>
        match jsonParseStr seg with
        | some v =>
          let code := errorSubField v "code"
          let status := errorSubField v "status"
          if jsonIsNum code 503 || jsonIsStr status "UNAVAILABLE" then some "🔄 Server Sibuk"
          else if jsonIsNum code 429 then some "⏳ Rate limit"
          else if jsonIsNum code 400 && jsIncludes msg "API key expired" then
            some "🔑 API key expired"
          else if jsonIsNum code 400 && jsIncludes msg "API_KEY_INVALID" then
            some "🔑 API key invalid"
          else if jsonIsNum code 401 then some "🔑 API key salah"
          else if jsonIsNum code 404 then some "❓ Model tidak ada"
          else none
        | none => none
      | none => none
    else none
  match jsonBranch with
  | some res => res
  | none =>
    if jsIncludes msg "503" || jsIncludes msg "overload" || jsIncludes msg "UNAVAILABLE" then
      "🔄 Server sibuk"
    else if jsIncludes msg "429" || jsIncludes msg "RESOURCE_EXHAUSTED" || jsIncludes msg "quota" then
      "⏳ Rate limit"
    else if jsIncludes msg "timeout" || jsIncludes msg "DEADLINE_EXCEEDED" then
      "⏰ Timeout"
    else if jsIncludes msg "API key expired" then
      "🔑 API key expired"
    else if jsIncludes msg "401" || jsIncludes msg "API_KEY" || jsIncludes msg "authentication" then
      "🔑 API key invalid"
    else if jsIncludes msg "404" || jsIncludes msg "not found" then
      "❓ Model tidak ada"
    else if jsIncludes msg "SAFETY" || jsIncludes msg "blocked" then
      "🚫 Diblokir safety"
    else if jsIncludes msg "ECONNREFUSED" || jsIncludes msg "network" then
      "📡 Network error"
    else if jsIncludes msg "Empty response" || jsIncludes msg "parse failure" then
      "📭 Jawaban kosong"
    else
      String.mk (msg.data.take 30) ++ (if 30 < msg.length then "..." else "")

/-- Option of a structured question. -/
structure QuestionOption where
  label : String
  text : String
deriving DecidableEq, Repr

/-- Structured question input (`QuestionInput` of the source); an absent
`options` array behaves like an empty one in every embedded operation. -/
structure QuestionInput where
  question : String
  options : List QuestionOption
  type : Option String
  number : Option Nat
  image : Option String
deriving DecidableEq, Repr

/-- The constant template returned by `buildPrompt` for a plain-string input
(the input string itself is not used). -/
def stringModePrompt : String :=
  "You are a MikroTik certification exam expert operating in \"DEEP THINKING MODE\".\n\nPROTOCOL:\n1.  **Analyze**: Read the question and every single option carefully.\n2.  **Evaluate**: For EACH option, write a detailed explanation why it is correct or incorrect.\n3.  **Reasoning**: You MUST provide thorough reasoning (at least 5-10 sentences). Do NOT be lazy.\n4.  **Conclusion**: Final Answer must be determined only after analysis.\n\nFORMAT:\nReasoning:\n[Your detailed step-by-step analysis here...]\n\nJSON:\n\x7b\"answer\": \"A\", \"confidence\": 95\x7d\n"

/-- Embedding of `buildPrompt` of `src/api/index.ts`; a `string` input takes
the left branch, a `QuestionInput` object the right one. -/
def buildPrompt : Sum String QuestionInput → String
  | Sum.inl _ => stringModePrompt
  | Sum.inr input =>
    let p2 :=
      "You are a MikroTik certification exam expert.\n\n" ++
      "Goal: Provide the most accurate answer based on deep technical reasoning.\n\n" ++
      "INSTRUCTIONS:\n" ++
      "1. Analyze the Question: Identify key constraints (e.g., \"invalid\", \"not\", \"public IP\").\n" ++
      "2. Analyze Options: Evaluate each option\x27s technical validity.\n" ++
      "3. Chain of Thought: Explain your step-by-step reasoning.\n" ++
      "4. Final Output: Return the answer in strictly valid JSON.\n\n"
    let p3 := p2 ++ "Question: " ++ input.question ++ "\n"
    let p4 :=
      if 0 < input.options.length then
        (input.options.foldl (fun acc opt => acc ++ (opt.label ++ ". " ++ opt.text ++ "\n"))
          (p3 ++ "Options:\n")) ++
        (if input.type = some "checkbox" then "\nType: CHECKBOX (select ALL correct answers)\n"
         else if input.type = some "select" then "\nType: TRUE/FALSE\n"
         else "\nType: SINGLE CHOICE\n")
      else p3
    let p5 := p4 ++ "\nOutput Format:\n" ++
      "First, write your \"Reasoning: ...\" block.\n" ++
      "Then, write \"JSON: \x7b\"answer\": \"...\", \"confidence\": ...\x7d\" on a new line.\n"
    if input.image.isSome then
      p5 ++ "\n[IMAGE DETECTED] An image is provided with this question. Analyze the image carefully.\n"
    else p5

/-- Preamble of the object branch of `buildPrompt`, for stating its layout. -/
def objPreamble : String :=
  "You are a MikroTik certification exam expert.\n\n" ++
  "Goal: Provide the most accurate answer based on deep technical reasoning.\n\n" ++
  "INSTRUCTIONS:\n" ++
  "1. Analyze the Question: Identify key constraints (e.g., \"invalid\", \"not\", \"public IP\").\n" ++
  "2. Analyze Options: Evaluate each option\x27s technical validity.\n" ++
  "3. Chain of Thought: Explain your step-by-step reasoning.\n" ++
  "4. Final Output: Return the answer in strictly valid JSON.\n\n"

/-- One rendered option line `"<label>. <text>\n"` per option, in order. -/
def optionLines : List QuestionOption → String
  | [] => ""
  | o :: os => (o.label ++ ". " ++ o.text ++ "\n") ++ optionLines os

/-- The type note appended after the option lines. -/
def typeNote (t : Option String) : String :=
  if t = some "checkbox" then "\nType: CHECKBOX (select ALL correct answers)\n"
  else if t = some "select" then "\nType: TRUE/FALSE\n"
  else "\nType: SINGLE CHOICE\n"

/-- The options section of the rendered prompt (empty when there are no
options). -/
def optionsSection (opts : List QuestionOption) (t : Option String) : String :=
  if 0 < opts.length then "Options:\n" ++ optionLines opts ++ typeNote t else ""

/-- The output-format instruction demanding the terminal JSON block with the
fields `answer` and `confidence`. -/
def outputFormatSection : String :=
  "\nOutput Format:\n" ++
  "First, write your \"Reasoning: ...\" block.\n" ++
  "Then, write \"JSON: \x7b\"answer\": \"...\", \"confidence\": ...\x7d\" on a new line.\n"

/-- The image notice (present exactly when the question carries an image). -/
def imageSection (img : Option String) : String :=
  if img.isSome then
    "\n[IMAGE DETECTED] An image is provided with this question. Analyze the image carefully.\n"
  else ""

/-- Uniform result envelope of one provider call (`ModelResult` of the
source); absent optional fields are represented by `""`/`0`. -/
structure ModelResult where
  success : Bool
  answer : String
  confidence : Nat
  model : String
  raw : String
  error : String
deriving DecidableEq, Repr

/-- The fixed provider roster: three workers and the judge. -/
def MODELS : List String :=
  ["gemini-3-flash-preview", "gemini-2.0-flash-001", "gemini-2.5-flash-lite", "gemini-2.5-pro"]

/-- Outcome of one underlying network attempt inside `callSingleModel`: a raw
response text (possibly empty, standing for a missing/empty body) or a thrown
error message. -/
inductive AttemptOutcome where
  | ok : String → AttemptOutcome
  | err : String → AttemptOutcome
deriving DecidableEq, Repr

/-- Is the outcome a thrown error? -/
def AttemptOutcome.isErr : AttemptOutcome → Bool
  | .ok _ => false
  | .err _ => true

/-- The retry loop body of `callSingleModel`: `attempt` is the 1-based loop
counter, `fuel` the number of remaining iterations (`retries + 1 - attempt`);
the second component of the result is the number of attempts consumed. -/
def attemptLoop (model : String) (outs : Nat → AttemptOutcome) (retries : Nat) :
    Nat → Nat → ModelResult × Nat
  | attempt, 0 => (⟨false, "", 0, model, "", "Unknown error"⟩, attempt - 1)
  | attempt, fuel + 1 =>
    let handleErr (msg : String) : ModelResult × Nat :=
      let isOverload := jsIncludes msg "503" || jsIncludes msg "429" || jsIncludes msg "Overload"
      if attempt = retries then
        (⟨false, "", 0, model, "",
          if isOverload then "Server Overload (Max Retries)" else formatError msg⟩, attempt)
      else attemptLoop model outs retries (attempt + 1) fuel
    match outs attempt with
    | .ok raw =>
      if jsTrim raw ≠ "" then
        let p := parseAnswerWithConfidence raw
        if p.answer ≠ "" then (⟨true, p.answer, p.confidence, model, raw, ""⟩, attempt)
        else handleErr "Empty response or parse failure"
      else handleErr "Empty response or parse failure"
    | .err msg => handleErr msg

/-- Embedding of `callSingleModel` of `src/api/index.ts`: run up to `retries`
attempts whose underlying outcomes are given by `outs`; every failure —
whatever its classification — goes through the same retry path.  Returns the
result envelope together with the number of attempts consumed. -/
def callSingleModel (model : String) (outs : Nat → AttemptOutcome) (retries : Nat) :
    ModelResult × Nat :=
  attemptLoop model outs retries 1 retries

/-- Accumulator pass keeping the first occurrence of each string. -/
def dedupStringsGo (seen : List String) : List String → List String
  | [] => []
  | x :: xs =>
    if seen.contains x then dedupStringsGo seen xs else x :: dedupStringsGo (x :: seen) xs

/-- Keep the first occurrence of each string (a JavaScript `Set`). -/
def dedupStrings (l : List String) : List String := dedupStringsGo [] l

/-- Lexicographic comparison by character code, the default comparator of
`Array.prototype.sort` on strings. -/
def charsLe : List Char → List Char → Bool
  | [], _ => true
  | _ :: _, [] => false
  | a :: as, b :: bs => if a < b then true else if b < a then false else charsLe as bs

mutual

/-- Segment collector of `split(/[\s,]+/)`: accumulate the current segment
(reversed) until a separator run starts. -/
def splitRunsGo (cur : List Char) : List Char → List String
  | [] => [String.mk cur.reverse]
  | c :: cs =>
    if isSepChar c then String.mk cur.reverse :: splitRunsSkip cs
    else splitRunsGo (c :: cur) cs

/-- Separator-run skipper of `split(/[\s,]+/)`: a trailing run yields a
trailing empty segment, as in JavaScript. -/
def splitRunsSkip : List Char → List String
  | [] => [""]
  | c :: cs => if isSepChar c then splitRunsSkip cs else splitRunsGo [c] cs

end

/-- Embedding of JavaScript `split(/[\s,]+/)` (runs of commas/whitespace as
separators, boundary empties included). -/
def splitSepRuns (s : String) : List String := splitRunsGo [] s.data

/-- Embedding of `normalizeAnswer` of `src/api/index.ts`: `TRUE`/`FALSE`
become the lower-case literals, otherwise the answer is split on
comma/whitespace and the single `A-Z` letters are deduplicated and sorted. -/
def normalizeAnswer (answer : String) : List String :=
  if answer = "" then []
  else
    let upperAnswer := jsTrim (jsUpper answer)
    if upperAnswer = "TRUE" ∨ upperAnswer = "FALSE" then [jsLower upperAnswer]
    else
      let labels := ((splitSepRuns upperAnswer).map jsTrim).filter
        (fun s => match s.data with
          | [c] => 'A' ≤ c ∧ c ≤ 'Z'
          | _ => false)
      List.insertionSort (fun a b : String => charsLe a.data b.data = true) (dedupStrings labels)

/-- Embedding of the `normalize` closure inside `callGeminiEnsemble`:
true/false literals, the two-option true/false letter mapping, the `A-F`
letter extraction, the exact option-text match, and the raw fallback. -/
def normalize (ans : String) (opts : List QuestionOption) : String :=
  if ans = "" then ""
  else
    let a := jsUpper (jsTrim ans)
    if a = "TRUE" then "true"
    else if a = "FALSE" then "false"
    else
      let tfResult : Option String :=
        if opts.length = 2 then
          let optTexts := opts.map (fun o => jsTrim (jsLower o.text))
          if optTexts.contains "true" ∨ optTexts.contains "false" then
            let trueOpt := opts.find? (fun o => jsTrim (jsLower o.text) = "true")
            let falseOpt := opts.find? (fun o => jsTrim (jsLower o.text) = "false")
            if a = "A" ∧ trueOpt.map (fun o => o.label) = some "A" then some "true"
            else if a = "A" ∧ falseOpt.map (fun o => o.label) = some "A" then some "false"
            else if a = "B" ∧ trueOpt.map (fun o => o.label) = some "B" then some "true"
            else if a = "B" ∧ falseOpt.map (fun o => o.label) = some "B" then some "false"
            else none
          else none
        else none
      match tfResult with
      | some s => s
      | none =>
        let letters := a.data.filter isLetterAF
        if ¬ letters.isEmpty then dedupSortJoin letters
        else
          match opts.find? (fun o => o.text ≠ "" ∧ jsLower (jsTrim o.text) = jsLower a) with
          | some o => o.label
          | none => a

/-- Result of one resolution round (`VotingResult` of the source); the
`votes`/`modelAnswers` summaries are set only by `_confidenceWeightedVote`. -/
structure VotingResult where
  finalAnswer : String
  finalConfidence : Nat
  votes : Option (List (String × Nat × Nat))
  modelAnswers : Option (List (String × String × Nat))
  method : String
deriving DecidableEq, Repr

/-- One tally cell, keyed by a normalized answer. -/
structure VoteCell where
  answer : String
  count : Nat
  totalConfidence : Nat
  models : List String
deriving DecidableEq, Repr

/-- A tally entry ranked for sorting, with the rounded average confidence. -/
structure SortedVote where
  answer : String
  count : Nat
  avgConfidence : Nat
  models : List String
deriving DecidableEq, Repr

/-- `Math.round(total / count)` for nonnegative integers (round half up). -/
def roundAvg (total count : Nat) : Nat := (2 * total + count) / (2 * count)

/-- Add one vote to the tally, preserving first-occurrence key order (the
insertion order of a JavaScript object with non-numeric string keys). -/
def addVote (acc : List VoteCell) (ans : String) (conf : Nat) (model : String) : List VoteCell :=
  if acc.any (fun c => c.answer = ans) then
    acc.map (fun c =>
      if c.answer = ans then ⟨c.answer, c.count + 1, c.totalConfidence + conf, c.models ++ [model]⟩
      else c)
  else acc ++ [⟨ans, 1, conf, [model]⟩]

/-- The vote tally of `callGeminiEnsemble`: successful workers with a truthy
normalized answer are counted by exact normalized string. -/
def buildVoteCounts (results : List ModelResult) (options : List QuestionOption) : List VoteCell :=
  results.foldl
    (fun acc r =>
      if r.success then
        let ans := normalize r.answer options
        if ans ≠ "" then addVote acc ans r.confidence r.model else acc
      else acc)
    []

/-- Average view of a tally cell. -/
def toSortedVote (c : VoteCell) : SortedVote :=
  ⟨c.answer, c.count, roundAvg c.totalConfidence c.count, c.models⟩

/-- Ranking relation of the sort comparator
`(a, b) => b.count - a.count, then b.avgConfidence - a.avgConfidence`:
`voteRel a b` holds when `a` may come no later than `b`, so that a stable
insertion sort reproduces the stable JavaScript sort. -/
def voteRel (a b : SortedVote) : Prop :=
  b.count < a.count ∨ (b.count = a.count ∧ b.avgConfidence ≤ a.avgConfidence)

instance : DecidableRel voteRel := fun a b => by
  unfold voteRel
  infer_instance

instance : IsTotal SortedVote voteRel := by
  constructor
  intro a b
  unfold voteRel
  omega

instance : IsTrans SortedVote voteRel := by
  constructor
  intro a b c h1 h2
  unfold voteRel at *
  omega

/-- The sorted vote list of `callGeminiEnsemble` (count descending, average
confidence descending, stable). -/
def sortedVotes (results : List ModelResult) (options : List QuestionOption) : List SortedVote :=
  List.insertionSort voteRel ((buildVoteCounts results options).map toSortedVote)

/-- Ranking relation of `sort((a, b) => b.confidence! - a.confidence!)`
(confidence descending, stable). -/
def confRel (a b : ModelResult) : Prop := b.confidence ≤ a.confidence

instance : DecidableRel confRel := fun a b => by
  unfold confRel
  infer_instance

instance : IsTotal ModelResult confRel := by
  constructor
  intro a b
  unfold confRel
  omega

instance : IsTrans ModelResult confRel := by
  constructor
  intro a b c h1 h2
  unfold confRel at *
  omega

/-- The judge phase of `callGeminiEnsemble`: a successful judge decides with
its own confidence; otherwise the successful worker with the highest
confidence is returned with method `fallback_worker`; if nothing succeeded
the round throws. -/
def judgePhase (results : List ModelResult) (judgeResult : ModelResult) :
    Except String VotingResult :=
  if judgeResult.success then
    .ok ⟨judgeResult.answer, judgeResult.confidence, none, none, "judge"⟩
  else
    match (List.insertionSort confRel (results.filter (fun r => r.success))).head? with
    | some best => .ok ⟨best.answer, best.confidence, none, none, "fallback_worker"⟩
    | none => .error "All models failed including Judge"

/-- Embedding of `callGeminiEnsemble` of `src/api/index.ts`.  The three
worker results and the (conditionally consulted) judge result are passed as
pure values; the judge value is only inspected when no two workers agree. -/
def callGeminiEnsemble (results : List ModelResult) (options : List QuestionOption)
    (judgeResult : ModelResult) : Except String VotingResult :=
  match (sortedVotes results options).head? with
  | some topVote =>
    if 2 ≤ topVote.count then
      .ok ⟨topVote.answer, topVote.avgConfidence, none, none,
        if topVote.count = 3 then "unanimous" else "majority"⟩
    else judgePhase results judgeResult
  | none => judgePhase results judgeResult

/-- STEP 1 of `_confidenceWeightedVote`: a successful result whose normalized
label set has four or more distinct letters has its confidence capped at 40
and is flagged unreliable. -/
def penalizeUnreliable (r : ModelResult) : ModelResult × Bool :=
  if 4 ≤ (normalizeAnswer r.answer).length then
    ({ r with confidence := min r.confidence 40 }, true)
  else (r, false)

/-- The penalized successful results of `_confidenceWeightedVote`. -/
def reliableResults (modelResults : List ModelResult) : List (ModelResult × Bool) :=
  (modelResults.filter (fun r => r.success)).map penalizeUnreliable

/-- Pick of `reduce((a, b) => a.confidence! > b.confidence! ? a : b)`. -/
def reduceBest : List (ModelResult × Bool) → Option (ModelResult × Bool)
  | [] => none
  | x :: xs => some (xs.foldl (fun a b => if b.1.confidence < a.1.confidence then a else b) x)

/-- Embedding of `_confidenceWeightedVote` of `src/api/index.ts` (the helper
is defined but never called by the live ensemble path). -/
def _confidenceWeightedVote (modelResults : List ModelResult) : Except String VotingResult :=
  let successfulResults := modelResults.filter (fun r => r.success)
  match successfulResults with
  | [] => .error "All models failed in ensemble"
  | [r] =>
    .ok ⟨r.answer, r.confidence, some [(r.answer, 1, r.confidence)],
      some [(r.model, r.answer, r.confidence)], "single"⟩
  | _ =>
    let rels := reliableResults modelResults
    let answerCounts := rels.foldl
      (fun acc p => addVote acc (jsTrim (jsUpper p.1.answer)) p.1.confidence p.1.model) []
    let sortedAnswers := List.insertionSort voteRel (answerCounts.map toSortedVote)
    let votesSummary := sortedAnswers.map (fun a => (a.answer, a.count, a.avgConfidence))
    let modelAnswers := rels.map
      (fun p => (p.1.model ++ (if p.2 then " ⚠️" else ""), p.1.answer, p.1.confidence))
    let decide0 : String × Nat × String :=
      match sortedAnswers.head? with
      | some topAnswer =>
        if 2 ≤ topAnswer.count then (topAnswer.answer, topAnswer.avgConfidence, "consensus")
        else
          match rels.find? (fun p => p.1.model = MODELS.getD 0 "" ∧ p.2 = false) with
          | some primary => (primary.1.answer, primary.1.confidence, "primary")
          | none =>
            match rels.find? (fun p => p.1.model = MODELS.getD 1 "" ∧ p.2 = false) with
            | some secondary => (secondary.1.answer, secondary.1.confidence, "secondary")
            | none =>
              match reduceBest rels with
              | some best => (best.1.answer, best.1.confidence, "fallback")
              | none => ("", 0, "fallback")
      | none =>
        match rels.find? (fun p => p.1.model = MODELS.getD 0 "" ∧ p.2 = false) with
        | some primary => (primary.1.answer, primary.1.confidence, "primary")
        | none =>
          match rels.find? (fun p => p.1.model = MODELS.getD 1 "" ∧ p.2 = false) with
          | some secondary => (secondary.1.answer, secondary.1.confidence, "secondary")
          | none =>
            match reduceBest rels with
            | some best => (best.1.answer, best.1.confidence, "fallback")
            | none => ("", 0, "fallback")
    .ok ⟨decide0.1, decide0.2.1, some votesSummary, some modelAnswers, decide0.2.2⟩

/-- Result envelope of the REST variant `callGeminiREST` of
`src/unnamed/part_000`. -/
structure RestResult where
  success : Bool
  answer : String
  confidence : Nat
  model : String
  error : String
deriving DecidableEq, Repr

/-- Outcome of the single `fetch` performed by `callGeminiREST`. -/
inductive FetchOutcome where
  | httpOk : String → FetchOutcome
  | httpErr : Nat → String → FetchOutcome
  | threw : String → String → FetchOutcome
deriving DecidableEq, Repr

/-- Embedding of `callGeminiREST` of `src/unnamed/part_000`: with a missing
API key the call fails immediately (it performs no attempt and has no retry
loop at all); otherwise the single fetch outcome decides the envelope. -/
def callGeminiREST (apiKey : Option String) (model : String) (outcome : FetchOutcome) :
    RestResult :=
  match apiKey with
  | none => ⟨false, "", 0, model, "Missing API Key"⟩
  | some _ =>
    match outcome with
    | .httpOk text => ⟨true, text, 0, model, ""⟩
    | .httpErr status errText =>
      ⟨false, "", 0, model, "API Error " ++ toString status ++ ": " ++ errText⟩
    | .threw name msg =>
      if name = "AbortError" then ⟨false, "", 0, model, "Timeout (15s limit)"⟩
      else ⟨false, "", 0, model, msg⟩

/-- Cache entry of `recentAnswers` (`\x7b answer, ts \x7d`). -/
structure CacheEntry where
  answer : String
  ts : Nat
deriving DecidableEq, Repr

/-- Cache time-to-live (`120 * 1000` milliseconds). -/
def TTL_MS : Nat := 120 * 1000

/-- Embedding of `vacuum`: drop every entry strictly older than the TTL. -/
def vacuum (m : List (String × CacheEntry)) (now : Nat) : List (String × CacheEntry) :=
  m.filter (fun kv => ¬ TTL_MS < now - kv.2.ts)

/-- `recentAnswers.get(key)` on the association-list model of the `Map`. -/
def lookupCache (m : List (String × CacheEntry)) (key : String) : Option CacheEntry :=
  (m.find? (fun kv => kv.1 = key)).map (fun kv => kv.2)

/-- `recentAnswers.set(key, e)` on the association-list model of the `Map`. -/
def setCache (m : List (String × CacheEntry)) (key : String) (e : CacheEntry) :
    List (String × CacheEntry) :=
  if m.any (fun kv => kv.1 = key) then
    m.map (fun kv => if kv.1 = key then (key, e) else kv)
  else m ++ [(key, e)]

/-- The cache step of the `POST /ask` handler: vacuum, then serve from the
cache only when an entry exists and its age is within the TTL (both `Date.now()`
readings of the source are modelled by the single instant `now`).  The first
component is the served cached answer; `none` means a fresh resolution round
is triggered. -/
def handlerCacheStep (m : List (String × CacheEntry)) (key : String) (now : Nat) :
    Option String × List (String × CacheEntry) :=
  let m1 := vacuum m now
  match lookupCache m1 key with
  | some e => if now - e.ts ≤ TTL_MS then (some e.answer, m1) else (none, m1)
  | none => (none, m1)

/-- Embedding of `processRequestDirectly`: on a successful round the final
answer is stored in the cache and returned; a thrown round is re-thrown and
the cache is left untouched. -/
def processRequestDirectly (m : List (String × CacheEntry)) (key : String) (now : Nat)
    (voting : Except String VotingResult) : Except String (String × Nat) × List (String × CacheEntry) :=
  match voting with
  | .ok v => (.ok (v.finalAnswer, v.finalConfidence), setCache m key ⟨v.finalAnswer, now⟩)
  | .error e => (.error e, m)

/-- Stable-sort head dominance: the head of an insertion sort under a total
transitive relation is related to every element of the list. -/
theorem head_sort_rel {α : Type} (r : α → α → Prop) [DecidableRel r] [IsTotal α r] [IsTrans α r]
    (l : List α) (h : α) (hh : (List.insertionSort r l).head? = some h)
    (x : α) (hx : x ∈ l) : r h x := by
  have hperm := List.perm_insertionSort r l
  have hs := List.sorted_insertionSort r l
  have hx' : x ∈ List.insertionSort r l := hperm.mem_iff.mpr hx
  cases he : List.insertionSort r l with
  | nil => rw [he] at hh; simp at hh
  | cons a t =>
    rw [he] at hh
    simp only [List.head?_cons, Option.some.injEq] at hh
    subst hh
    rw [he] at hx' hs
    rcases List.mem_cons.mp hx' with rfl | hm
    · rcases IsTotal.total (r := r) x x with h1 | h1 <;> exact h1
    · exact List.rel_of_sorted_cons hs _ hm

/-- A tally built only from failed results is empty. -/
theorem buildVoteCounts_all_fail (results : List ModelResult) (opts : List QuestionOption)
    (h : ∀ r ∈ results, r.success = false) : buildVoteCounts results opts = [] := by
  unfold buildVoteCounts
  induction results with
  | nil => rfl
  | cons r t ih =>
    have hr : r.success = false := h r (List.mem_cons_self r t)
    simp only [List.foldl_cons, hr, Bool.false_eq_true, if_false]
    exact ih (fun x hx => h x (List.mem_cons_of_mem r hx))

/-- In an association list with pairwise distinct keys, two members with the
same key are equal. -/
theorem eq_of_mem_keys_nodup {α β : Type} (m : List (α × β))
    (hnodup : (m.map Prod.fst).Nodup) (x y : α × β) (hx : x ∈ m) (hy : y ∈ m)
    (hxy : x.1 = y.1) : x = y := by
  induction m with
  | nil => cases hx
  | cons a t ih =>
    rw [List.map_cons, List.nodup_cons] at hnodup
    rcases List.mem_cons.mp hx with rfl | hx' <;> rcases List.mem_cons.mp hy with rfl | hy'
    · rfl
    · exact absurd (hxy ▸ List.mem_map_of_mem Prod.fst hy') hnodup.1
    · exact absurd (hxy ▸ List.mem_map_of_mem Prod.fst hx') hnodup.1
    · exact ih hnodup.2 hx' hy'

/-- Option lines are accumulated by the fold exactly as their concatenation. -/
theorem foldl_optionLines (opts : List QuestionOption) (s : String) :
    opts.foldl (fun acc opt => acc ++ (opt.label ++ ". " ++ opt.text ++ "\n")) s
      = s ++ optionLines opts := by
  induction opts generalizing s with
  | nil => simp [optionLines]
  | cons o os ih =>
    rw [List.foldl_cons, ih]
    simp [optionLines, String.append_assoc]

/-- C1: whenever some normalized answer is shared by at least two workers,
`callGeminiEnsemble` returns the top-ranked tallied answer, with method
`unanimous` when its count equals the full worker roster size (3) and
`majority` otherwise, and with the tally's rounded average confidence. -/
theorem ensemble_majority_unanimous (results : List ModelResult) (opts : List QuestionOption)
    (judge : ModelResult) (hroster : results.length = 3)
    (hmaj : ∃ v ∈ buildVoteCounts results opts, 2 ≤ v.count) :
    ∃ top, (sortedVotes results opts).head? = some top ∧ 2 ≤ top.count ∧
      callGeminiEnsemble results opts judge =
        .ok ⟨top.answer, top.avgConfidence, none, none,
          if top.count = 3 then "unanimous" else "majority"⟩ := by
  obtain ⟨v, hv, hc⟩ := hmaj
  have hmem : toSortedVote v ∈ (buildVoteCounts results opts).map toSortedVote :=
    List.mem_map_of_mem toSortedVote hv
  cases he : (sortedVotes results opts).head? with
  | none =>
    exfalso
    have hperm := List.perm_insertionSort voteRel ((buildVoteCounts results opts).map toSortedVote)
    have : toSortedVote v ∈ sortedVotes results opts := hperm.mem_iff.mpr hmem
    cases hs : sortedVotes results opts with
    | nil => rw [hs] at this; cases this
    | cons a t => rw [hs] at he; simp at he
  | some top =>
    have hrel : voteRel top (toSortedVote v) :=
      head_sort_rel voteRel ((buildVoteCounts results opts).map toSortedVote) top he
        (toSortedVote v) hmem
    have htop : 2 ≤ top.count := by
      have : (toSortedVote v).count = v.count := rfl
      unfold voteRel at hrel
      omega
    refine ⟨top, rfl, htop, ?_⟩
    have hstep : callGeminiEnsemble results opts judge =
        if 2 ≤ top.count then
          Except.ok ⟨top.answer, top.avgConfidence, none, none,
            if top.count = 3 then "unanimous" else "majority"⟩
        else judgePhase results judge := by
      unfold callGeminiEnsemble
      rw [he]
    rw [hstep, if_pos htop]

/-- C1 witness: the worker results A(90), A(80), B(70) trigger the majority
branch and yield finalAnswer "A", method "majority", confidence 85. -/
theorem ensemble_majority_unanimous_witness :
    callGeminiEnsemble
      [⟨true, "A", 90, "m1", "", ""⟩, ⟨true, "A", 80, "m2", "", ""⟩,
       ⟨true, "B", 70, "m3", "", ""⟩] [] ⟨false, "", 0, "judge", "", "e"⟩ =
      .ok ⟨"A", 85, none, none, "majority"⟩ := by
  obtain ⟨top, hh, hc, he⟩ := ensemble_majority_unanimous
    [⟨true, "A", 90, "m1", "", ""⟩, ⟨true, "A", 80, "m2", "", ""⟩,
     ⟨true, "B", 70, "m3", "", ""⟩] [] ⟨false, "", 0, "judge", "", "e"⟩ rfl
    ⟨⟨"A", 2, 170, ["m1", "m2"]⟩, by decide, by decide⟩
  have htop : top = ⟨"A", 2, 85, ["m1", "m2"]⟩ := by
    have hx : (sortedVotes
        [⟨true, "A", 90, "m1", "", ""⟩, ⟨true, "A", 80, "m2", "", ""⟩,
         ⟨true, "B", 70, "m3", "", ""⟩] []).head? = some ⟨"A", 2, 85, ["m1", "m2"]⟩ := by decide
    rw [hx] at hh
    exact (Option.some.inj hh).symm
  rw [he, htop]
  rfl

/-- C2 counterexample: in the live ensemble path a worker answering the four
letters A, B, C, D with confidence 99 is tallied and, after a judge failure,
wins the fallback with its raw confidence 99 — it is neither capped at 40 nor
prevented from winning on raw confidence. -/
theorem ensemble_no_penalty_cex :
    callGeminiEnsemble
      [⟨true, "A, B, C, D", 99, "m1", "", ""⟩, ⟨true, "A", 90, "m2", "", ""⟩,
       ⟨true, "B", 80, "m3", "", ""⟩] [] ⟨false, "", 0, "judge", "", "e"⟩ =
      .ok ⟨"A, B, C, D", 99, none, none, "fallback_worker"⟩ ∧
    (normalizeAnswer "A, B, C, D").length = 4 ∧ ¬ (99 : Nat) ≤ 40 := by
  refine ⟨by rfl, by decide, by omega⟩

/-- C2 as amended: the 4-or-more-letters reliability penalty exists only in
the helper `_confidenceWeightedVote` (which the live ensemble path never
calls): there, every successful result with 4 or more distinct normalized
letters has its confidence capped at 40 and is flagged unreliable before the
tally. -/
theorem weighted_vote_caps_unreliable (modelResults : List ModelResult) (r : ModelResult)
    (hr : r ∈ modelResults.filter (fun x => x.success))
    (hlabels : 4 ≤ (normalizeAnswer r.answer).length) :
    (penalizeUnreliable r).1.confidence = min r.confidence 40 ∧
    (penalizeUnreliable r).2 = true ∧
    penalizeUnreliable r ∈ reliableResults modelResults ∧
    (penalizeUnreliable r).1.confidence ≤ 40 := by
  have hp : penalizeUnreliable r = ({ r with confidence := min r.confidence 40 }, true) := by
    unfold penalizeUnreliable
    rw [if_pos hlabels]
  refine ⟨by rw [hp], by rw [hp], ?_, by rw [hp]; exact Nat.min_le_right _ _⟩
  unfold reliableResults
  exact List.mem_map_of_mem penalizeUnreliable hr

/-- C2 witness: a worker answering "A, B, C, D" with confidence 99 is capped
to 40 and flagged unreliable by `_confidenceWeightedVote`'s first step. -/
theorem weighted_vote_caps_unreliable_witness :
    (penalizeUnreliable ⟨true, "A, B, C, D", 99, "m1", "", ""⟩).1.confidence = min 99 40 ∧
    (penalizeUnreliable ⟨true, "A, B, C, D", 99, "m1", "", ""⟩).2 = true ∧
    penalizeUnreliable ⟨true, "A, B, C, D", 99, "m1", "", ""⟩ ∈
      reliableResults [⟨true, "A, B, C, D", 99, "m1", "", ""⟩] ∧
    (penalizeUnreliable ⟨true, "A, B, C, D", 99, "m1", "", ""⟩).1.confidence ≤ 40 :=
  weighted_vote_caps_unreliable [⟨true, "A, B, C, D", 99, "m1", "", ""⟩]
    ⟨true, "A, B, C, D", 99, "m1", "", ""⟩ (by decide) (by decide)

/-- Every attempt of the retry loop that throws is retried until the last
configured attempt, whatever the error's classification. -/
theorem attemptLoop_all_err (model : String) (outs : Nat → AttemptOutcome) (retries : Nat)
    (h2 : ∀ i, (outs i).isErr = true) :
    ∀ fuel attempt, attempt + fuel = retries + 1 →
      (attemptLoop model outs retries attempt fuel).1.success = false ∧
      (attemptLoop model outs retries attempt fuel).2 = retries := by
  intro fuel
  induction fuel with
  | zero =>
    intro attempt hsum
    unfold attemptLoop
    constructor
    · rfl
    · simp only
      omega
  | succ f ih =>
    intro attempt hsum
    cases ho : outs attempt with
    | ok s =>
      exfalso
      have := h2 attempt
      rw [ho] at this
      cases this
    | err msg =>
      unfold attemptLoop
      rw [ho]
      by_cases hat : attempt = retries
      · simp only [hat, if_pos rfl]
        exact ⟨rfl, rfl⟩
      · simp only [if_neg hat]
        exact ih (attempt + 1) (by omega)

/-- C3 counterexample: with every attempt failing as an authentication error
(message "401 Unauthorized", classified "🔑 API key invalid"), the client
still consumes all 3 configured attempts instead of short-circuiting after
the first. -/
theorem auth_error_short_circuit_cex :
    (callSingleModel "m" (fun _ => AttemptOutcome.err "401 Unauthorized") 3).2 = 3 ∧
    (callSingleModel "m" (fun _ => AttemptOutcome.err "401 Unauthorized") 3).1.success = false ∧
    (callSingleModel "m" (fun _ => AttemptOutcome.err "401 Unauthorized") 3).1.error =
      "🔑 API key invalid" ∧
    (3 : Nat) ≠ 1 := by
  refine ⟨by decide, by decide, by decide, by omega⟩

/-- C3 as amended: `callSingleModel` retries every failure — including
authentication and not-found errors — up to `maxAttempts`, returning the
failure envelope only after the last attempt; no error class short-circuits
the loop.  Only the REST variant's missing-API-key check returns immediately,
and it does so before any attempt because that variant performs no retries at
all. -/
theorem all_failures_retried (model : String) (outs : Nat → AttemptOutcome) (retries : Nat)
    (hretries : 1 ≤ retries) (herr : ∀ i, (outs i).isErr = true) :
    (callSingleModel model outs retries).1.success = false ∧
    (callSingleModel model outs retries).2 = retries ∧
    (∀ (m : String) (oc : FetchOutcome),
      callGeminiREST none m oc = ⟨false, "", 0, m, "Missing API Key"⟩) := by
  have h := attemptLoop_all_err model outs retries herr retries 1 (by omega)
  exact ⟨h.1, h.2, fun m oc => rfl⟩

/-- C3 witness: three authentication failures consume all three attempts. -/
theorem all_failures_retried_witness :
    (callSingleModel "m" (fun _ => AttemptOutcome.err "401 x") 3).1.success = false ∧
    (callSingleModel "m" (fun _ => AttemptOutcome.err "401 x") 3).2 = 3 ∧
    (∀ (m : String) (oc : FetchOutcome),
      callGeminiREST none m oc = ⟨false, "", 0, m, "Missing API Key"⟩) :=
  all_failures_retried "m" (fun _ => AttemptOutcome.err "401 x") 3 (by omega) (fun _ => rfl)

/-- C8: when every worker and the judge fail, the ensemble throws the
exhaustion error ("All models failed including Judge", the `EnsembleExhausted`
classification of the specification) and fabricates no answer. -/
theorem ensemble_exhausted (results : List ModelResult) (opts : List QuestionOption)
    (judge : ModelResult) (hw : ∀ r ∈ results, r.success = false)
    (hj : judge.success = false) :
    callGeminiEnsemble results opts judge = .error "All models failed including Judge" := by
  have hcells := buildVoteCounts_all_fail results opts hw
  have hsv : sortedVotes results opts = [] := by
    unfold sortedVotes
    rw [hcells]
    rfl
  have hfilter : results.filter (fun r => r.success) = [] := by
    rw [List.filter_eq_nil_iff]
    intro a ha
    simp [hw a ha]
  unfold callGeminiEnsemble
  rw [hsv]
  unfold judgePhase
  rw [hj]
  simp only [Bool.false_eq_true, if_false]
  rw [hfilter]
  rfl

/-- C8 witness: three failed workers and a failed judge throw the exhaustion
error. -/
theorem ensemble_exhausted_witness :
    callGeminiEnsemble
      [⟨false, "", 0, "m1", "", "e1"⟩, ⟨false, "", 0, "m2", "", "e2"⟩,
       ⟨false, "", 0, "m3", "", "e3"⟩] [] ⟨false, "", 0, "judge", "", "e4"⟩ =
      .error "All models failed including Judge" :=
  ensemble_exhausted _ _ _ (by decide) rfl

/-- C4 counterexample: for workers A(90), B(85), C(70) and a failing judge,
the live code returns method "fallback_worker" (selected among all successful
workers), not the claimed "fallback_confidence". -/
theorem judge_fallback_method_cex :
    callGeminiEnsemble
      [⟨true, "A", 90, "m1", "", ""⟩, ⟨true, "B", 85, "m2", "", ""⟩,
       ⟨true, "C", 70, "m3", "", ""⟩] [] ⟨false, "", 0, "judge", "", "e"⟩ =
      .ok ⟨"A", 90, none, none, "fallback_worker"⟩ ∧
    ("fallback_worker" : String) ≠ "fallback_confidence" := by
  refine ⟨by rfl, by decide⟩

/-- C4 as amended: when no tallied answer reaches two votes and the judge
fails, the engine returns the successful worker with the highest confidence
(no reliability filtering) with method "fallback_worker". -/
theorem judge_failure_fallback (results : List ModelResult) (opts : List QuestionOption)
    (judge : ModelResult)
    (hnomaj : ∀ v ∈ buildVoteCounts results opts, v.count < 2)
    (hjf : judge.success = false)
    (hsucc : ∃ r ∈ results, r.success = true) :
    ∃ best, (List.insertionSort confRel (results.filter (fun r => r.success))).head? = some best ∧
      callGeminiEnsemble results opts judge =
        .ok ⟨best.answer, best.confidence, none, none, "fallback_worker"⟩ ∧
      ∀ r ∈ results, r.success = true → r.confidence ≤ best.confidence := by
  have hjp : callGeminiEnsemble results opts judge = judgePhase results judge := by
    cases he : (sortedVotes results opts).head? with
    | none =>
      unfold callGeminiEnsemble
      rw [he]
    | some top =>
      have htm : top ∈ sortedVotes results opts := by
        cases hs : sortedVotes results opts with
        | nil => rw [hs] at he; cases he
        | cons a t =>
          rw [hs] at he
          simp only [List.head?_cons, Option.some.injEq] at he
          rw [← he]
          exact List.mem_cons_self a t
      have htm' : top ∈ (buildVoteCounts results opts).map toSortedVote :=
        (List.perm_insertionSort voteRel _).mem_iff.mp htm
      obtain ⟨v, hv, hveq⟩ := List.mem_map.mp htm'
      have hcount : top.count < 2 := by
        have h1 := hnomaj v hv
        have h2 : (toSortedVote v).count = v.count := rfl
        rw [← hveq]
        omega
      have hstep : callGeminiEnsemble results opts judge =
          if 2 ≤ top.count then
            Except.ok ⟨top.answer, top.avgConfidence, none, none,
              if top.count = 3 then "unanimous" else "majority"⟩
          else judgePhase results judge := by
        unfold callGeminiEnsemble
        rw [he]
      rw [hstep, if_neg (by omega)]
  rw [hjp]
  unfold judgePhase
  rw [hjf]
  simp only [Bool.false_eq_true, if_false]
  obtain ⟨r0, hr0, hs0⟩ := hsucc
  have hr0f : r0 ∈ results.filter (fun r => r.success) :=
    List.mem_filter.mpr ⟨hr0, by simp [hs0]⟩
  cases hb : (List.insertionSort confRel (results.filter (fun r => r.success))).head? with
  | none =>
    exfalso
    have hnil : List.insertionSort confRel (results.filter (fun r => r.success)) = [] :=
      List.head?_eq_none_iff.mp hb
    have hperm := List.perm_insertionSort confRel (results.filter (fun r => r.success))
    rw [hnil] at hperm
    have : r0 ∈ ([] : List ModelResult) := hperm.symm.mem_iff.mp hr0f
    cases this
  | some best =>
    refine ⟨best, rfl, rfl, ?_⟩
    intro r hr hrs
    exact head_sort_rel confRel _ best hb r (List.mem_filter.mpr ⟨hr, by simp [hrs]⟩)

/-- C4 witness: workers A(90), B(85), C(70) with a failing judge produce
finalAnswer "A" with confidence 90 through the amended fallback. -/
theorem judge_failure_fallback_witness :
    callGeminiEnsemble
      [⟨true, "A", 90, "m1", "", ""⟩, ⟨true, "B", 85, "m2", "", ""⟩,
       ⟨true, "C", 70, "m3", "", ""⟩] [] ⟨false, "", 0, "judge", "", "e"⟩ =
      .ok ⟨"A", 90, none, none, "fallback_worker"⟩ := by
  obtain ⟨best, hb, he, hbound⟩ := judge_failure_fallback
    [⟨true, "A", 90, "m1", "", ""⟩, ⟨true, "B", 85, "m2", "", ""⟩,
     ⟨true, "C", 70, "m3", "", ""⟩] [] ⟨false, "", 0, "judge", "", "e"⟩
    (by decide) rfl ⟨⟨true, "A", 90, "m1", "", ""⟩, by decide, rfl⟩
  have hbest : best = ⟨true, "A", 90, "m1", "", ""⟩ := by
    have hx : (List.insertionSort confRel
        (([⟨true, "A", 90, "m1", "", ""⟩, ⟨true, "B", 85, "m2", "", ""⟩,
           ⟨true, "C", 70, "m3", "", ""⟩] : List ModelResult).filter
          (fun r => r.success))).head? = some ⟨true, "A", 90, "m1", "", ""⟩ := by decide
    rw [hx] at hb
    exact (Option.some.inj hb).symm
  rw [he, hbest]

/-- C5 counterexample: for a plain-string input, `buildPrompt` returns the
fixed instruction template and the question text does not occur anywhere in
the rendered prompt. -/
theorem string_prompt_omits_question_cex :
    jsIncludes (buildPrompt (Sum.inl "What is 2+2?")) "What is 2+2?" = false ∧
    buildPrompt (Sum.inl "What is 2+2?") = stringModePrompt := by
  refine ⟨by rfl, rfl⟩

/-- C5 as amended: for structured (object) inputs the rendered prompt is
exactly the instruction preamble, then the question text, then the options
section rendering each option as "label. text" in original order, then the
terminal-JSON format instruction naming the fields `answer` and `confidence`,
then the image notice exactly when an image is present; for plain-string
inputs the builder returns a fixed template omitting the input text. -/
theorem buildPrompt_layout (qi : QuestionInput) :
    buildPrompt (Sum.inr qi) =
      objPreamble ++ ("Question: " ++ qi.question ++ "\n") ++
        optionsSection qi.options qi.type ++ outputFormatSection ++ imageSection qi.image ∧
    optionsSection qi.options qi.type =
      (if 0 < qi.options.length then "Options:\n" ++ optionLines qi.options ++ typeNote qi.type
       else "") ∧
    (qi.image.isSome = true →
      imageSection qi.image =
        "\n[IMAGE DETECTED] An image is provided with this question. Analyze the image carefully.\n") ∧
    jsIncludes outputFormatSection "\"answer\"" = true ∧
    jsIncludes outputFormatSection "\"confidence\"" = true := by
  obtain ⟨q, opts, ty, num, img⟩ := qi
  refine ⟨?_, rfl, ?_, by rfl, by rfl⟩
  · cases img with
    | none =>
      by_cases ho : 0 < opts.length
      · simp only [buildPrompt, if_pos ho]
        rw [foldl_optionLines]
        simp only [objPreamble, optionsSection, outputFormatSection, imageSection, typeNote,
          if_pos ho, Option.isSome_none, Bool.false_eq_true, if_false, String.append_empty,
          String.append_assoc]
      · simp only [buildPrompt, objPreamble, optionsSection, outputFormatSection, imageSection,
          typeNote, if_neg ho, Option.isSome_none, Bool.false_eq_true, if_false,
          String.append_empty, String.append_assoc]
    | some im =>
      by_cases ho : 0 < opts.length
      · simp only [buildPrompt, if_pos ho]
        rw [foldl_optionLines]
        simp only [objPreamble, optionsSection, outputFormatSection, imageSection, typeNote,
          if_pos ho, Option.isSome_some, eq_self_iff_true, if_true, String.append_assoc]
      · simp only [buildPrompt, objPreamble, optionsSection, outputFormatSection, imageSection,
          typeNote, if_neg ho, Option.isSome_some, eq_self_iff_true, if_true,
          String.append_empty, String.append_assoc]
  · intro hi
    simp [imageSection, hi]

/-- C5 witness: a structured question with two options and an image renders
with the preamble, question, option lines, format instruction and image
notice in order. -/
theorem buildPrompt_layout_witness :
    buildPrompt (Sum.inr ⟨"Q?", [⟨"A", "x"⟩], some "select", none, some "img"⟩) =
      objPreamble ++ ("Question: " ++ "Q?" ++ "\n") ++
        optionsSection [⟨"A", "x"⟩] (some "select") ++ outputFormatSection ++
        imageSection (some "img") ∧
    imageSection (some "img") =
      "\n[IMAGE DETECTED] An image is provided with this question. Analyze the image carefully.\n" :=
  ⟨(buildPrompt_layout ⟨"Q?", [⟨"A", "x"⟩], some "select", none, some "img"⟩).1,
   (buildPrompt_layout ⟨"Q?", [⟨"A", "x"⟩], some "select", none, some "img"⟩).2.2.1 rfl⟩

/-- C6 counterexample: a text that contains a parseable JSON object with an
`answer` field and stray letters elsewhere, yet whose first `\x7b` opens an
unparseable span, defeats both JSON strategies and the letter fallbacks —
extraction returns empty labels, not the JSON-derived answer. -/
theorem json_priority_cex :
    parseAnswerWithConfidence "\x7b A \x7d and \x7b\"answer\": \"C\"\x7d" = ⟨"", 0⟩ ∧
    jsonAnswerField "\x7b\"answer\": \"C\"\x7d" = some "C" ∧
    jsIncludes "\x7b A \x7d and \x7b\"answer\": \"C\"\x7d" "\x7b\"answer\": \"C\"\x7d" = true ∧
    jsIncludes "\x7b A \x7d and \x7b\"answer\": \"C\"\x7d" "A" = true ∧
    ("" : String) ≠ "C" := by
  refine ⟨by rfl, by rfl, by rfl, by rfl, by decide⟩

/-- C6 as amended: the structured-JSON strategies run strictly before every
letter heuristic: whenever the whole-text JSON strategy misses and the JSON
span (which always starts at the first `\x7b` of the text) parses to a
non-null value, extraction returns the JSON-derived answer — stringified,
upper-cased, confidence clamped to [0,100] with default 50 — never a
letter-scan result. -/
theorem structured_json_first (text : String) (hne : ¬ text = "")
    (h1 : strategy1 (jsTrim text) = none)
    (span : String) (h2 : jsonRegexSpan (jsTrim text) = some span)
    (v : Json) (h3 : jsonParseStr (jsTrim (cleanFencesSimple span)) = some v)
    (h4 : ¬ v = Json.jnull) :
    parseAnswerWithConfidence text = ⟨answerStringOf v, confOf v⟩ := by
  have hs2 : strategy2 (jsTrim text) = some ⟨answerStringOf v, confOf v⟩ := by
    unfold strategy2
    rw [h2]
    show (match jsonParseStr (jsTrim (cleanFencesSimple span)) with
      | some Json.jnull => none
      | some v => some (ParsedAnswer.mk (answerStringOf v) (confOf v))
      | none => none) = some (ParsedAnswer.mk (answerStringOf v) (confOf v))
    rw [h3]
    cases v with
    | jnull => exact absurd rfl h4
    | jbool b => rfl
    | jnum a b c d => rfl
    | jstr a => rfl
    | jarr a => rfl
    | jobj a => rfl
  unfold parseAnswerWithConfidence
  rw [if_neg hne]
  show (match strategy1 (jsTrim text) with
    | some r => r
    | none =>
      match strategy2 (jsTrim text) with
      | some r => r
      | none =>
        match strategy3 (jsTrim text) with
        | some r => r
        | none =>
          match strategy4 (jsTrim text) with
          | some r => r
          | none =>
            match strategy5 (jsTrim text) with
            | some r => r
            | none =>
              match strategy6 (jsTrim text) with
              | some r => r
              | none => ParsedAnswer.mk "" 0) = ParsedAnswer.mk (answerStringOf v) (confOf v)
  rw [h1, hs2]

/-- C6 witness: a text holding both stray letters and a terminal JSON block
extracts the JSON answer C with confidence 80. -/
theorem structured_json_first_witness :
    parseAnswerWithConfidence
      "I think A or B.\nJSON: \x7b\"answer\": \"C\", \"confidence\": 80\x7d" = ⟨"C", 80⟩ ∧
    jsIncludes "I think A or B.\nJSON: \x7b\"answer\": \"C\", \"confidence\": 80\x7d"
      "A or B" = true := by
  constructor
  · have h := structured_json_first
      "I think A or B.\nJSON: \x7b\"answer\": \"C\", \"confidence\": 80\x7d" (by decide) (by rfl)
      "\x7b\"answer\": \"C\", \"confidence\": 80\x7d" (by rfl)
      (Json.jobj [("answer", Json.jstr "C"), ("confidence", Json.jnum 80 false true "80")])
      (by rfl) (fun hx => Json.noConfusion hx)
    rw [h]
    rfl
  · rfl

/-- C7: a cache entry strictly older than the TTL behaves as absent — the
opportunistic vacuum removes it, the handler's cache step serves nothing, and
a fresh resolution round is triggered. -/
theorem cache_expired_entry_absent (m : List (String × CacheEntry)) (key : String) (now : Nat)
    (e : CacheEntry) (hnodup : (m.map Prod.fst).Nodup)
    (hfind : lookupCache m key = some e) (hexp : TTL_MS < now - e.ts) :
    lookupCache (vacuum m now) key = none ∧ (handlerCacheStep m key now).1 = none := by
  unfold lookupCache at hfind
  cases hf : m.find? (fun kv => kv.1 = key) with
  | none => rw [hf] at hfind; cases hfind
  | some pr =>
    rw [hf] at hfind
    simp only [Option.map_some', Option.some.injEq] at hfind
    have hpk : pr.1 = key := by
      have := List.find?_some hf
      simpa using this
    have hpm : pr ∈ m := List.mem_of_find?_eq_some hf
    have hnone : (vacuum m now).find? (fun kv => kv.1 = key) = none := by
      rw [List.find?_eq_none]
      intro kv hkv
      simp only [decide_eq_true_eq]
      intro hkey
      have hkmem : kv ∈ m := List.mem_of_mem_filter hkv
      have hkv2 : kv = pr :=
        eq_of_mem_keys_nodup m hnodup kv pr hkmem hpm (by rw [hkey, hpk])
      have hcond := List.of_mem_filter hkv
      rw [hkv2, hfind] at hcond
      simp only [decide_eq_true_eq, Decidable.not_not] at hcond
      omega
    have hlk : lookupCache (vacuum m now) key = none := by
      unfold lookupCache
      rw [hnone]
      rfl
    refine ⟨hlk, ?_⟩
    simp only [handlerCacheStep, hlk]

/-- C7 witness: an entry inserted at time 0 is absent at time 120001 (one
millisecond past the TTL). -/
theorem cache_expired_entry_absent_witness :
    lookupCache (vacuum [("k", ⟨"A", 0⟩)] 120001) "k" = none ∧
    (handlerCacheStep [("k", ⟨"A", 0⟩)] "k" 120001).1 = none :=
  cache_expired_entry_absent [("k", ⟨"A", 0⟩)] "k" 120001 ⟨"A", 0⟩
    (by decide) (by rfl) (by decide)

/-- C9: the cache only ever receives successfully resolved answers — a failed
resolution round re-throws and leaves the cache exactly as it was, while a
successful one stores exactly the resolved final answer. -/
theorem failed_round_leaves_cache (m : List (String × CacheEntry)) (key : String) (now : Nat)
    (voting : Except String VotingResult) :
    (∀ e, voting = Except.error e →
      processRequestDirectly m key now voting = (Except.error e, m) ∧
      lookupCache (processRequestDirectly m key now voting).2 key = lookupCache m key) ∧
    (∀ v, voting = Except.ok v →
      (processRequestDirectly m key now voting).2 = setCache m key ⟨v.finalAnswer, now⟩) := by
  constructor
  · intro e he
    subst he
    exact ⟨rfl, rfl⟩
  · intro v hv
    subst hv
    rfl

/-- C9 witness: a failed round over a nonempty cache leaves it unchanged. -/
theorem failed_round_leaves_cache_witness :
    processRequestDirectly [("a", ⟨"X", 5⟩)] "k" 10 (Except.error "boom") =
      (Except.error "boom", [("a", ⟨"X", 5⟩)]) ∧
    lookupCache (processRequestDirectly [("a", ⟨"X", 5⟩)] "k" 10 (Except.error "boom")).2 "k" =
      lookupCache [("a", ⟨"X", 5⟩)] "k" :=
  (failed_round_leaves_cache [("a", ⟨"X", 5⟩)] "k" 10 (Except.error "boom")).1 "boom" rfl

/-- C10: on a two-option question whose option texts are the true/false
literals — in either assignment of "true"/"false" to the labels A and B —
the ensemble's normalizer maps a bare letter A or B vote to the literal of
the option bearing that label, and maps a literal true/false vote to the
same lower-case literal, so a letter vote and a literal vote for the same
option tally under the same normalized answer. -/
theorem tf_letter_normalization (ta tb : String)
    (h : jsTrim (jsLower ta) = "true" ∧ jsTrim (jsLower tb) = "false" ∨
         jsTrim (jsLower ta) = "false" ∧ jsTrim (jsLower tb) = "true") :
    normalize "A" [⟨"A", ta⟩, ⟨"B", tb⟩] = jsTrim (jsLower ta) ∧
    normalize "B" [⟨"A", ta⟩, ⟨"B", tb⟩] = jsTrim (jsLower tb) ∧
    normalize "TRUE" [⟨"A", ta⟩, ⟨"B", tb⟩] = "true" ∧
    normalize "FALSE" [⟨"A", ta⟩, ⟨"B", tb⟩] = "false" ∧
    normalize "A" [⟨"A", ta⟩, ⟨"B", tb⟩] =
      normalize (jsTrim (jsLower ta)) [⟨"A", ta⟩, ⟨"B", tb⟩] ∧
    normalize "B" [⟨"A", ta⟩, ⟨"B", tb⟩] =
      normalize (jsTrim (jsLower tb)) [⟨"A", ta⟩, ⟨"B", tb⟩] := by
  have hT : normalize "TRUE" [⟨"A", ta⟩, ⟨"B", tb⟩] = "true" := rfl
  have hF : normalize "FALSE" [⟨"A", ta⟩, ⟨"B", tb⟩] = "false" := rfl
  have hTl : normalize "true" [⟨"A", ta⟩, ⟨"B", tb⟩] = "true" := rfl
  have hFl : normalize "false" [⟨"A", ta⟩, ⟨"B", tb⟩] = "false" := rfl
  rcases h with ⟨h1, h2⟩ | ⟨h1, h2⟩
  · have hfT : ([⟨"A", ta⟩, ⟨"B", tb⟩] : List QuestionOption).find?
        (fun o => jsTrim (jsLower o.text) = "true") = some ⟨"A", ta⟩ := by
      simp [List.find?, h1]
    have hfF : ([⟨"A", ta⟩, ⟨"B", tb⟩] : List QuestionOption).find?
        (fun o => jsTrim (jsLower o.text) = "false") = some ⟨"B", tb⟩ := by
      simp [List.find?, h1, h2]
    have hA : normalize "A" [⟨"A", ta⟩, ⟨"B", tb⟩] = "true" := by
      unfold normalize
      rw [if_neg (by decide)]
      simp only [hfT, hfF, h1, h2]
      simp [h1, h2, show jsUpper (jsTrim "A") = "A" from rfl]
    have hB : normalize "B" [⟨"A", ta⟩, ⟨"B", tb⟩] = "false" := by
      unfold normalize
      rw [if_neg (by decide)]
      simp only [hfT, hfF, h1, h2]
      simp [h1, h2, show jsUpper (jsTrim "B") = "B" from rfl]
    refine ⟨by rw [hA, h1], by rw [hB, h2], hT, hF, ?_, ?_⟩
    · rw [hA, h1, hTl]
    · rw [hB, h2, hFl]
  · have hfT : ([⟨"A", ta⟩, ⟨"B", tb⟩] : List QuestionOption).find?
        (fun o => jsTrim (jsLower o.text) = "true") = some ⟨"B", tb⟩ := by
      simp [List.find?, h1, h2]
    have hfF : ([⟨"A", ta⟩, ⟨"B", tb⟩] : List QuestionOption).find?
        (fun o => jsTrim (jsLower o.text) = "false") = some ⟨"A", ta⟩ := by
      simp [List.find?, h1]
    have hA : normalize "A" [⟨"A", ta⟩, ⟨"B", tb⟩] = "false" := by
      unfold normalize
      rw [if_neg (by decide)]
      simp only [hfT, hfF, h1, h2]
      simp [h1, h2, show jsUpper (jsTrim "A") = "A" from rfl]
    have hB : normalize "B" [⟨"A", ta⟩, ⟨"B", tb⟩] = "true" := by
      unfold normalize
      rw [if_neg (by decide)]
      simp only [hfT, hfF, h1, h2]
      simp [h1, h2, show jsUpper (jsTrim "B") = "B" from rfl]
    refine ⟨by rw [hA, h1], by rw [hB, h2], hT, hF, ?_, ?_⟩
    · rw [hA, h1, hFl]
    · rw [hB, h2, hTl]

/-- C10 witness: with option texts exactly "true" and "false" — in both
label assignments — letter and literal votes normalize identically. -/
theorem tf_letter_normalization_witness :
    (normalize "A" [⟨"A", "true"⟩, ⟨"B", "false"⟩] = "true" ∧
     normalize "B" [⟨"A", "true"⟩, ⟨"B", "false"⟩] = "false" ∧
     normalize "A" [⟨"A", "true"⟩, ⟨"B", "false"⟩] =
       normalize "TRUE" [⟨"A", "true"⟩, ⟨"B", "false"⟩]) ∧
    (normalize "A" [⟨"A", "false"⟩, ⟨"B", "true"⟩] = "false" ∧
     normalize "B" [⟨"A", "false"⟩, ⟨"B", "true"⟩] = "true" ∧
     normalize "B" [⟨"A", "false"⟩, ⟨"B", "true"⟩] =
       normalize "TRUE" [⟨"A", "false"⟩, ⟨"B", "true"⟩]) := by
  have hd := tf_letter_normalization "true" "false" (Or.inl ⟨rfl, rfl⟩)
  have hs := tf_letter_normalization "false" "true" (Or.inr ⟨rfl, rfl⟩)
  refine ⟨⟨hd.1.trans rfl, hd.2.1.trans rfl, ?_⟩, ⟨hs.1.trans rfl, hs.2.1.trans rfl, ?_⟩⟩
  · exact (hd.1.trans rfl).trans hd.2.2.1.symm
  · exact (hs.2.1.trans rfl).trans hs.2.2.1.symm

end AiServer
